import Mathlib

/-!
Shallow embedding of the string-analyzer service
(src/string-analyzer/string-analyzer.service.ts and
src/string-analyzer/string-analyzer.controller.ts).

Strings are modelled as Lean `String` / `List Char`; the JavaScript string
helpers used by the source (`toLowerCase`, `trim`, the regular expressions of
`parseNaturalQuery`, `Number`, `parseInt`) are modelled character by character
below.  The PostgreSQL store is modelled as an in-memory list of rows, and the
query built by `getAllWithFilters` as the corresponding row predicate.  The
SHA-256 digest provided by the external node `crypto` module is modelled as a
function parameter `hash : String → String`.
-/

/-- Decidable equality of results, used to evaluate the model on concrete
inputs. -/
instance exceptDecEq {ε α : Type} [DecidableEq ε] [DecidableEq α] :
    DecidableEq (Except ε α) := fun x y =>
  match x, y with
  | .error a, .error b =>
    if h : a = b then .isTrue (by rw [h])
    else .isFalse (fun hh => by cases hh; exact h rfl)
  | .error _, .ok _ => .isFalse (fun hh => by cases hh)
  | .ok _, .error _ => .isFalse (fun hh => by cases hh)
  | .ok a, .ok b =>
    if h : a = b then .isTrue (by rw [h])
    else .isFalse (fun hh => by cases hh; exact h rfl)

namespace StringAnalyzer

/-- Models the JavaScript whitespace class (as used by `trim` and the regex
class `\s`) on the code points appearing in this development: tab, line feed,
vertical tab, form feed, carriage return, space, no-break space and the BOM. -/
def isJsWs (c : Char) : Bool :=
  c.toNat = 9 ∨ c.toNat = 10 ∨ c.toNat = 11 ∨ c.toNat = 12 ∨ c.toNat = 13 ∨
    c.toNat = 32 ∨ c.toNat = 160 ∨ c.toNat = 65279

/-- Models `String.prototype.trim`: drop whitespace from both ends. -/
def jsTrim (s : List Char) : List Char :=
  ((s.dropWhile isJsWs).reverse.dropWhile isJsWs).reverse

/-- Models `String.prototype.toLowerCase` on ASCII letters.  (The source only
ever feeds the result to ASCII-range tests, so the ASCII mapping is the part
of the JavaScript behaviour that matters here.) -/
def jsToLower (c : Char) : Char :=
  if 65 ≤ c.toNat ∧ c.toNat ≤ 90 then Char.ofNat (c.toNat + 32) else c

/-- Character class of the regex `[a-z0-9]` (code points 97..122 and 48..57). -/
def isLowerAlnum (c : Char) : Bool :=
  (97 ≤ c.toNat ∧ c.toNat ≤ 122) ∨ (48 ≤ c.toNat ∧ c.toNat ≤ 57)

/-- Character class "ASCII letter or digit" (either case), as the spec words
the palindrome normalization. -/
def isAsciiAlnum (c : Char) : Bool :=
  (97 ≤ c.toNat ∧ c.toNat ≤ 122) ∨ (65 ≤ c.toNat ∧ c.toNat ≤ 90) ∨
    (48 ≤ c.toNat ∧ c.toNat ≤ 57)

/-- Character class of the regex `\d` (ASCII digits). -/
def isDigitChar (c : Char) : Bool :=
  48 ≤ c.toNat ∧ c.toNat ≤ 57

/-- Palindrome normalization of the service (service line 126):
`value.toLowerCase().replace(/[^a-z0-9]/g, '')`. -/
def normalizeValue (s : List Char) : List Char :=
  (s.map jsToLower).filter isLowerAlnum

/-- Palindrome check of the service (service lines 127-128): the normalized
sequence equals its own reverse. -/
def isPalindrome (s : List Char) : Bool :=
  normalizeValue s = (normalizeValue s).reverse

/-- Palindrome normalization as the specification words it: lower-case, then
strip every character that is not an ASCII letter or digit. -/
def specNormalize (s : List Char) : List Char :=
  (s.map jsToLower).filter isAsciiAlnum

/-- Palindrome check as the specification words it. -/
def specIsPalindrome (s : List Char) : Bool :=
  specNormalize s = (specNormalize s).reverse

/-- Association-list lookup in a character frequency map. -/
def lookupCount : List (Char × Nat) → Char → Option Nat
  | [], _ => none
  | (k, n) :: rest, c => if k = c then some n else lookupCount rest c

/-- One step of the frequency-map loop of the service (lines 134-137):
`characterFrequencyMap[char] = (characterFrequencyMap[char] || 0) + 1`. -/
def bump : List (Char × Nat) → Char → List (Char × Nat)
  | [], c => [(c, 1)]
  | (k, n) :: rest, c => if k = c then (k, n + 1) :: rest else (k, n) :: bump rest c

/-- Character frequency map of the raw value, keys in original case and in
first-occurrence order (service lines 134-137). -/
def freqMap (s : List Char) : List (Char × Nat) :=
  s.foldl bump []

/-- Word counter of the service (lines 131-132): zero for an all-whitespace
value, otherwise the number of maximal whitespace-free runs of the trimmed
value, which is the length of `value.trim().split(/\s+/)`. -/
def wordCount (s : List Char) : Nat :=
  let t := jsTrim s
  if t = [] then 0
  else (t.foldl
    (fun acc c =>
      if isJsWs c then (acc.1, false)
      else if acc.2 then acc else (acc.1 + 1, true))
    ((0 : Nat), false)).1

/-- The computed property record (service lines 139-146). -/
structure PropertyRecord where
  length : Nat
  is_palindrome : Bool
  unique_characters : Nat
  word_count : Nat
  sha256_hash : String
  character_frequency_map : List (Char × Nat)
deriving DecidableEq

/-- Property computation of `analyzeAndSave` (service lines 125-146) for a
value that has passed the input checks.  The digest of the external `crypto`
module is passed in as `hash`. -/
def mkProperties (hash : String → String) (value : String) : PropertyRecord :=
  { length := value.toList.length
    is_palindrome := isPalindrome value.toList
    unique_characters := value.toList.dedup.length
    word_count := wordCount value.toList
    sha256_hash := hash value
    character_frequency_map := freqMap value.toList }

/-- A request body value as seen through the `typeof` check of the service:
either a string or some non-string value. -/
inductive JSInput where
  | str (s : String)
  | nonString
deriving DecidableEq

/-- The two input-validation errors of the analysis path: a non-string value
(thrown as UnprocessableEntityException, line 100) and a value that trims to
the empty string (thrown as BadRequestException, line 106). -/
inductive AnalyzeError where
  | invalidType
  | emptyValue
deriving DecidableEq

/-- HTTP status that the service error classes carry (422 for
UnprocessableEntityException, 400 for BadRequestException). -/
def analyzeErrorStatus : AnalyzeError → Nat
  | .invalidType => 422
  | .emptyValue => 400

/-- The pure analysis part of `analyzeAndSave` (service lines 98-146 with the
repository access removed): validate the input, then compute the properties. -/
def analyze (hash : String → String) : JSInput → Except AnalyzeError PropertyRecord
  | .nonString => .error .invalidType
  | .str v =>
    if jsTrim v.toList = [] then .error .emptyValue
    else .ok (mkProperties hash v)

/-- A stored row (entity `StringAnalyzer`): `created_at` is generated by the
database and never read by the analyzed code, so it is omitted. -/
structure Entry where
  id : String
  value : String
  properties : PropertyRecord
deriving DecidableEq

/-- Errors of the full write path (service comment lines 92-95). -/
inductive SaveError where
  | invalidType
  | emptyValue
  | duplicate
deriving DecidableEq

/-- The write path `analyzeAndSave` (service lines 97-161) over an in-memory
model `store` of the table: type check, emptiness check, digest, duplicate
check by id (`findOne({ where: { id: sha256Hash } })`, lines 118-123), then
property computation and insertion. -/
def analyzeAndSave (hash : String → String) (store : List Entry) :
    JSInput → Except SaveError Entry
  | .nonString => .error .invalidType
  | .str v =>
    if jsTrim v.toList = [] then .error .emptyValue
    else
      if store.any (fun e => e.id = hash v) then .error .duplicate
      else .ok { id := hash v, value := v, properties := mkProperties hash v }

/-- Case-insensitive character comparison, as the `i` flag of the regexes in
`parseNaturalQuery`. -/
def charEqCI (a b : Char) : Bool :=
  jsToLower a = jsToLower b

/-- Case-insensitive test that `pat` is a leading segment of `s`. -/
def startsWithCI : List Char → List Char → Bool
  | [], _ => true
  | _ :: _, [] => false
  | p :: ps, c :: cs => charEqCI p c && startsWithCI ps cs

/-- Case-insensitive substring test, as `/pat/i.test(query)` for a literal
pattern: some position of `s` starts with `pat`. -/
def containsCI (pat : List Char) : List Char → Bool
  | [] => pat = []
  | c :: cs => startsWithCI pat (c :: cs) || containsCI pat cs

/-- When `pat` is a case-insensitive leading segment of `s`, the remainder of
`s` after it. -/
def dropCI (pat s : List Char) : Option (List Char) :=
  match pat, s with
  | [], s => some s
  | _ :: _, [] => none
  | p :: ps, c :: cs => if charEqCI p c then dropCI ps cs else none

/-- Value of a digit string, as `parseInt(digits, 10)`. -/
def digitsToNat (ds : List Char) : Nat :=
  ds.foldl (fun a c => a * 10 + (c.toNat - 48)) 0

/-- Matches the regex tail `\s+(\d+)` at the head of `s`: at least one
whitespace character, then at least one digit (taken greedily), returning the
value of the digit run. -/
def wsThenNum (s : List Char) : Option Nat :=
  if (s.takeWhile isJsWs) = [] then none
  else
    let rest := s.dropWhile isJsWs
    let ds := rest.takeWhile isDigitChar
    if ds = [] then none else some (digitsToNat ds)

/-- Tries the alternatives of a group `(?:kw1|kw2|...)` in order at the head
of `s`, each continued by `\s+(\d+)`. -/
def tryKwNum (kws : List (List Char)) (s : List Char) : Option Nat :=
  match kws with
  | [] => none
  | kw :: rest =>
    match dropCI kw s with
    | some after =>
      match wsThenNum after with
      | some n => some n
      | none => tryKwNum rest s
    | none => tryKwNum rest s

/-- Leftmost match of `(?:kw1|kw2|...)\s+(\d+)` in `s`, as `String.match`
returns it: positions are tried left to right and, at each position,
alternatives in their written order. -/
def scanKwNum (kws : List (List Char)) : List Char → Option Nat
  | [] => none
  | c :: cs =>
    match tryKwNum kws (c :: cs) with
    | some n => some n
    | none => scanKwNum kws cs

/-- Match of `(\d+)\s+words?` at the head of `s`: a greedy digit run, at
least one whitespace character, then the literal `word` (the optional `s`
constrains nothing). -/
def tryNumWord (s : List Char) : Option Nat :=
  let ds := s.takeWhile isDigitChar
  if ds = [] then none
  else
    let r1 := s.dropWhile isDigitChar
    if (r1.takeWhile isJsWs) = [] then none
    else
      let r2 := r1.dropWhile isJsWs
      if startsWithCI ('w' :: 'o' :: 'r' :: 'd' :: []) r2 then some (digitsToNat ds)
      else none

/-- Leftmost match of the regex `(\d+)\s+words?` (service line 48). -/
def scanNumWord : List Char → Option Nat
  | [] => none
  | c :: cs =>
    match tryNumWord (c :: cs) with
    | some n => some n
    | none => scanNumWord cs

/-- Matches `\s+([a-z])` (with the `i` flag) at the head of `s`: whitespace,
then a single ASCII letter, returned as captured. -/
def wsThenLetter (s : List Char) : Option Char :=
  if (s.takeWhile isJsWs) = [] then none
  else
    match s.dropWhile isJsWs with
    | [] => none
    | c :: _ => if isAsciiAlnum c ∧ ¬ isDigitChar c then some c else none

/-- Tries the alternatives of the containment group in order at the head of
`s`, each continued by `\s+([a-z])`. -/
def tryKwLetter (kws : List (List Char)) (s : List Char) : Option Char :=
  match kws with
  | [] => none
  | kw :: rest =>
    match dropCI kw s with
    | some after =>
      match wsThenLetter after with
      | some c => some c
      | none => tryKwLetter rest s
    | none => tryKwLetter rest s

/-- Leftmost match of `(?:containing the letter|containing|contains)\s+([a-z])`
(service lines 59-61). -/
def scanKwLetter (kws : List (List Char)) : List Char → Option Char
  | [] => none
  | c :: cs =>
    match tryKwLetter kws (c :: cs) with
    | some ch => some ch
    | none => scanKwLetter kws cs

/-- The filter shape produced by `parseNaturalQuery` and consumed by
`getAllWithFilters`; an absent field is an absent object key. -/
structure Filters where
  is_palindrome : Option Bool := none
  word_count : Option Int := none
  min_length : Option Int := none
  max_length : Option Int := none
  contains_character : Option Char := none
deriving DecidableEq

/-- Keyword lists of the three scanning regexes of `parseNaturalQuery`. -/
def longerKws : List (List Char) :=
  [('l' :: 'o' :: 'n' :: 'g' :: 'e' :: 'r' :: ' ' :: 't' :: 'h' :: 'a' :: 'n' :: []),
   ('m' :: 'o' :: 'r' :: 'e' :: ' ' :: 't' :: 'h' :: 'a' :: 'n' :: [])]

/-- Keywords of the `shorter than` regex (service line 55). -/
def shorterKws : List (List Char) :=
  [('s' :: 'h' :: 'o' :: 'r' :: 't' :: 'e' :: 'r' :: ' ' :: 't' :: 'h' :: 'a' :: 'n' :: []),
   ('l' :: 'e' :: 's' :: 's' :: ' ' :: 't' :: 'h' :: 'a' :: 'n' :: [])]

/-- Keywords of the containment regex (service line 60). -/
def containKws : List (List Char) :=
  ["containing the letter".toList, "containing".toList, "contains".toList]

/-- The rule-extraction part of `parseNaturalQuery` (service lines 40-68).
The imperative source assigns each filter field from at most one rule and no
rule reads another field, except that the `first vowel` heuristic (lines
66-68) fires only when the containment capture (lines 59-63) did not; the
record below states each field by its own rule accordingly.  Captured
containment letters are lower-cased as in `containsMatch[1].toLowerCase()`. -/
def extractFilters (q : List Char) : Filters :=
  { is_palindrome := if containsCI "palindrom".toList q then some true else none
    word_count :=
      if containsCI "single word".toList q then some 1
      else (scanNumWord q).map (fun n => (n : Int))
    min_length := (scanKwNum longerKws q).map (fun n => (n : Int) + 1)
    max_length := (scanKwNum shorterKws q).map (fun n => (n : Int) - 1)
    contains_character :=
      match scanKwLetter containKws q with
      | some c => some (jsToLower c)
      | none => if containsCI "first vowel".toList q then some 'a' else none }

/-- First consistency check of `parseNaturalQuery` (service lines 71-79):
both bounds present and `min_length > max_length`. -/
def minMaxConflict (f : Filters) : Bool :=
  match f.min_length, f.max_length with
  | some a, some b => decide (a > b)
  | _, _ => false

/-- Second consistency check of `parseNaturalQuery` (service lines 81-85):
a present, negative `word_count`. -/
def negativeWordCount (f : Filters) : Bool :=
  match f.word_count with
  | some w => decide (w < 0)
  | none => false

/-- The consistency checks of `parseNaturalQuery` (service lines 70-87): a
thrown UnprocessableEntityException is modelled as the error case. -/
def parseNaturalQuery (q : List Char) : Except Unit Filters :=
  if minMaxConflict (extractFilters q) then .error ()
  else if negativeWordCount (extractFilters q) then .error ()
  else .ok (extractFilters q)

/-- Failure kinds of the natural-language endpoint as the controller
distinguishes them (controller lines 69-97): missing query parameter (400),
unparseable query (400, lines 95-97), conflicting filters (422, line 91). -/
inductive NLError where
  | missingQuery
  | unparseable
  | conflicting
deriving DecidableEq

/-- HTTP status attached to each natural-language failure kind. -/
def nlErrorStatus : NLError → Nat
  | .missingQuery => 400
  | .unparseable => 400
  | .conflicting => 422

/-- The translation part of `filterByNaturalLanguage` (controller lines
70-97): require a non-blank query, parse the lower-cased trimmed text, map a
consistency failure to the conflicting kind, and an empty parsed filter
object (`Object.keys(parsedFilters).length === 0`) to the unparseable kind. -/
def translateNaturalLanguage (query : String) : Except NLError Filters :=
  if jsTrim query.toList = [] then .error .missingQuery
  else
    match parseNaturalQuery (jsTrim (query.toList.map jsToLower)) with
    | .error _ => .error .conflicting
    | .ok f => if f = {} then .error .unparseable else .ok f

/-- The row predicate of the query that `getAllWithFilters` builds (service
lines 211-275): one `andWhere` conjunct per present field.  The SQL text
comparison of `is_palindrome` with the strings `true`/`false` is boolean
equality on the stored JSON boolean; `min_length`/`max_length` are inclusive
bounds on `length`; `word_count` is exact equality; `contains_character` is
the JSONB key-existence operator on `character_frequency_map`. -/
def matchesFilters (f : Filters) (p : PropertyRecord) : Bool :=
  (match f.is_palindrome with
   | some b => p.is_palindrome = b
   | none => true) &&
  (match f.min_length with
   | some a => decide (a ≤ (p.length : Int))
   | none => true) &&
  (match f.max_length with
   | some b => decide ((p.length : Int) ≤ b)
   | none => true) &&
  (match f.word_count with
   | some w => decide ((p.word_count : Int) = w)
   | none => true) &&
  (match f.contains_character with
   | some c => (lookupCount p.character_frequency_map c).isSome
   | none => true)

/-- The read path `getAllWithFilters` over the in-memory model of the table:
the rows satisfying every present constraint, in table order.  The runtime
`typeof` guards of the service (lines 213-269) hold by construction on the
typed `Filters` record. -/
def getAllWithFilters (store : List Entry) (f : Filters) : List Entry :=
  store.filter (fun e => matchesFilters f e.properties)

/-- A finite JavaScript number in exact decimal form: the denoted value is
`mantissa * 10 ^ exp10`.  Every numeric string accepted by the analyzed
validation denotes such a value exactly; the model computes with it exactly
instead of rounding to an IEEE double, which agrees with JavaScript on every
value small enough to be represented exactly (all inputs of the claims). -/
structure DecNum where
  mantissa : Int
  exp10 : Int
deriving DecidableEq

/-- Denoted rational value of a finite decimal number. -/
def dToRat (d : DecNum) : ℚ :=
  (d.mantissa : ℚ) * (10 : ℚ) ^ d.exp10

/-- Negativity of the denoted value, decided on the representation. -/
def dNeg (d : DecNum) : Bool :=
  decide (d.mantissa < 0)

/-- The `Math.floor` of the denoted value, computed on the representation
(`Int.fdiv` rounds towards negative infinity, as `Math.floor` does). -/
def dFloor (d : DecNum) : Int :=
  if 0 ≤ d.exp10 then d.mantissa * (10 : Int) ^ d.exp10.toNat
  else Int.fdiv d.mantissa ((10 : Int) ^ (-d.exp10).toNat)

/-- Integrality of the denoted value, decided on the representation. -/
def dIsInt (d : DecNum) : Bool :=
  0 ≤ d.exp10 ∨ ((10 : Int) ^ (-d.exp10).toNat ∣ d.mantissa)

/-- Result of the JavaScript `Number` conversion: not a number, an infinity,
or a finite value. -/
inductive JSNum where
  | nan
  | inf (positive : Bool)
  | num (v : DecNum)
deriving DecidableEq

/-- Value of a digit run in a given base. -/
def digitsToNatBase (base : Nat) (ds : List Char) : Nat :=
  ds.foldl (fun a c =>
    a * base + (if 97 ≤ c.toNat then c.toNat - 87 else c.toNat - 48)) 0

/-- Hexadecimal digit class. -/
def isHexDigit (c : Char) : Bool :=
  isDigitChar c ∨ (97 ≤ c.toNat ∧ c.toNat ≤ 102)

/-- Parses the decimal-literal body `digits [. digits] [e [sign] digits]` or
`. digits [e [sign] digits]` of a JavaScript numeric string, returning its
exact value: the integer and fraction digits read as one integer, scaled by
ten to the exponent minus the number of fraction digits. -/
def parseDecimalBody (s : List Char) : Option DecNum :=
  let intDigits := s.takeWhile isDigitChar
  let r1 := s.dropWhile isDigitChar
  let fracSplit : List Char × List Char :=
    match r1 with
    | '.' :: rest => (rest.takeWhile isDigitChar, rest.dropWhile isDigitChar)
    | _ => ([], r1)
  let fracDigits := fracSplit.1
  let r2 := fracSplit.2
  if intDigits = [] ∧ fracDigits = [] then none
  else
    let mant : Int := (digitsToNat (intDigits ++ fracDigits) : Int)
    let fracLen : Int := (fracDigits.length : Int)
    match r2 with
    | [] => some { mantissa := mant, exp10 := -fracLen }
    | e :: r3 =>
      if e = 'e' ∨ e = 'E' then
        let signedExp : Bool × List Char :=
          match r3 with
          | '+' :: r4 => (true, r4)
          | '-' :: r4 => (false, r4)
          | _ => (true, r3)
        let expDigits := signedExp.2.takeWhile isDigitChar
        if expDigits = [] ∨ signedExp.2.dropWhile isDigitChar ≠ [] then none
        else
          let ex : Int :=
            if signedExp.1 then (digitsToNat expDigits : Int)
            else -(digitsToNat expDigits : Int)
          some { mantissa := mant, exp10 := ex - fracLen }
      else none

/-- Parses a radix-prefixed literal `0x…`, `0o…` or `0b…` (lower-case body;
the source never feeds such strings, they are covered for completeness). -/
def parseRadixBody (s : List Char) : Option DecNum :=
  match s with
  | '0' :: 'x' :: rest =>
    if rest ≠ [] ∧ rest.all isHexDigit
    then some { mantissa := (digitsToNatBase 16 rest : Int), exp10 := 0 } else none
  | '0' :: 'o' :: rest =>
    if rest ≠ [] ∧ rest.all (fun c => 48 ≤ c.toNat ∧ c.toNat ≤ 55)
    then some { mantissa := (digitsToNatBase 8 rest : Int), exp10 := 0 } else none
  | '0' :: 'b' :: rest =>
    if rest ≠ [] ∧ rest.all (fun c => c.toNat = 48 ∨ c.toNat = 49)
    then some { mantissa := (digitsToNatBase 2 rest : Int), exp10 := 0 } else none
  | _ => none

/-- Models the JavaScript `Number(string)` conversion: trim whitespace, an
empty remainder is zero, an optional sign applies to `Infinity` or a decimal
literal, radix-prefixed literals are unsigned, anything else is `NaN`. -/
def jsStringToNumber (s : String) : JSNum :=
  let t := jsTrim s.toList
  if t = [] then .num { mantissa := 0, exp10 := 0 }
  else
    match parseRadixBody t with
    | some d => .num d
    | none =>
      let signedBody : Bool × List Char :=
        match t with
        | '+' :: rest => (true, rest)
        | '-' :: rest => (false, rest)
        | _ => (true, t)
      let pos := signedBody.1
      let body := signedBody.2
      if body = "Infinity".toList then .inf pos
      else
        match parseDecimalBody body with
        | some d => .num (if pos then d else { d with mantissa := -d.mantissa })
        | none => .nan

/-- The raw query parameters of `GET /strings` as the controller receives
them (controller lines 131-136): each one an optional string. -/
structure RawQuery where
  is_palindrome : Option String := none
  min_length : Option String := none
  max_length : Option String := none
  word_count : Option String := none
  contains_character : Option String := none

/-- Validation of the `is_palindrome` parameter (controller lines 148-153):
exactly the strings `true` and `false` are accepted. -/
def parsePalParam : Option String → Except Unit (Option Bool)
  | none => .ok none
  | some s =>
    if s = "true" then .ok (some true)
    else if s = "false" then .ok (some false)
    else .error ()

/-- Validation of one numeric parameter (controller lines 156-173): convert
with `Number`, reject a non-finite or negative result, keep `Math.floor` of
the value. -/
def parseNumParam : Option String → Except Unit (Option Int)
  | none => .ok none
  | some s =>
    match jsStringToNumber s with
    | .num d => if dNeg d then .error () else .ok (some (dFloor d))
    | _ => .error ()

/-- Validation of the `contains_character` parameter (controller lines
176-184): exactly one character, then lower-cased. -/
def parseCharParam : Option String → Except Unit (Option Char)
  | none => .ok none
  | some s =>
    match s.toList with
    | [c] => .ok (some (jsToLower c))
    | _ => .error ()

/-- The whole structured-filter validation of `getAllAnalyses` (controller
lines 146-187): each supplied field is checked on its own; any failure is the
single BadRequestException of the catch block (line 186). -/
def parseFilterQuery (r : RawQuery) : Except Unit Filters := do
  let pal ← parsePalParam r.is_palindrome
  let mn ← parseNumParam r.min_length
  let mx ← parseNumParam r.max_length
  let wc ← parseNumParam r.word_count
  let cc ← parseCharParam r.contains_character
  return { is_palindrome := pal, word_count := wc, min_length := mn,
           max_length := mx, contains_character := cc }

/-- Error kinds surfaced by the two read endpoints, with the HTTP status the
exception classes carry. -/
inductive ApiError where
  | badRequest
  | unprocessable
  | notFound
deriving DecidableEq

/-- HTTP status of each read-path error kind. -/
def apiErrorStatus : ApiError → Nat
  | .badRequest => 400
  | .unprocessable => 422
  | .notFound => 404

/-- Successful response body of the list endpoints: the matching rows and
their number (`data` and `count`, controller lines 191-204). -/
structure ListResponse where
  items : List Entry
  count : Nat
deriving DecidableEq

/-- The endpoint `GET /strings` (controller lines 130-205): validate the raw
parameters, evaluate the filters, and answer with the rows found, the empty
list included. -/
def getAllAnalyses (store : List Entry) (r : RawQuery) : Except ApiError ListResponse :=
  match parseFilterQuery r with
  | .error _ => .error .badRequest
  | .ok f =>
    .ok { items := getAllWithFilters store f, count := (getAllWithFilters store f).length }

/-- The endpoint `GET /strings/filter-by-natural-language` (controller lines
69-115): translate the query, evaluate the resulting filters, and answer with
the rows found, the empty list included. -/
def filterByNaturalLanguage (store : List Entry) (query : String) :
    Except ApiError ListResponse :=
  match translateNaturalLanguage query with
  | .error .missingQuery => .error .badRequest
  | .error .unparseable => .error .badRequest
  | .error .conflicting => .error .unprocessable
  | .ok f =>
    .ok { items := getAllWithFilters store f, count := (getAllWithFilters store f).length }

/-- Support: `Char.ofNat` of a valid code point keeps its value. -/
theorem toNat_charOfNat_of_valid (n : Nat) (h : n < 55296) : (Char.ofNat n).toNat = n := by
  simp [Char.ofNat, Nat.isValidChar, h, Char.ofNatAux, Char.toNat, UInt32.toNat,
    BitVec.toNat_ofNatLt]

/-- Support: lower-casing never yields an upper-case ASCII letter. -/
theorem jsToLower_not_upper (c : Char) :
    ¬ (65 ≤ (jsToLower c).toNat ∧ (jsToLower c).toNat ≤ 90) := by
  unfold jsToLower
  split
  · rename_i h
    rw [toNat_charOfNat_of_valid _ (by omega)]
    omega
  · rename_i h
    omega

/-- Support: on lower-cased text, the class `[a-z0-9]` of the source regex
and the class "ASCII letter or digit" of the specification agree. -/
theorem isAsciiAlnum_jsToLower (c : Char) :
    isAsciiAlnum (jsToLower c) = isLowerAlnum (jsToLower c) := by
  unfold isAsciiAlnum isLowerAlnum
  rw [decide_eq_decide]
  have h := jsToLower_not_upper c
  omega

/-- Support: the two normalizations agree on every string. -/
theorem specNormalize_eq_normalizeValue (s : List Char) :
    specNormalize s = normalizeValue s := by
  unfold specNormalize normalizeValue
  apply List.filter_congr
  intro a ha
  obtain ⟨c, _, rfl⟩ := List.mem_map.mp ha
  exact isAsciiAlnum_jsToLower c

/-- The punctuated palindrome example of the specification, written without a
string literal for the embedded apostrophe (code point 39). -/
def madamImAdam : List Char :=
  ['M', 'a', 'd', 'a', 'm', ',', ' ', 'I', Char.ofNat 39, 'm', ' ', 'A', 'd', 'a', 'm']

/-- Claim C1: `is_palindrome` is computed by lower-casing the value, stripping every
character that is not an ASCII letter or digit, and comparing the normalized
sequence with its reverse; `madam` and the punctuated `Madam Im Adam`
example (comma and apostrophe included) are palindromes under this rule and
`hello` is not. -/
theorem palindrome_normalization_correct :
    (∀ s : List Char, isPalindrome s = specIsPalindrome s) ∧
    (∀ (hash : String → String) (v : String),
      (mkProperties hash v).is_palindrome = isPalindrome v.toList) ∧
    isPalindrome "madam".toList = true ∧
    isPalindrome madamImAdam = true ∧
    isPalindrome "hello".toList = false := by
  refine ⟨?_, ?_, by decide, by decide, by decide⟩
  · intro s
    unfold isPalindrome specIsPalindrome
    rw [specNormalize_eq_normalizeValue]
  · intro hash v
    rfl

/-- Claim C7: the analysis path signals exactly two input errors, a non-string
value (status 422) and a value that trims to empty (status 400), the two
being distinct; every other string input yields the property record. -/
theorem analyze_input_errors (hash : String → String) :
    analyze hash .nonString = .error .invalidType ∧
    (∀ v : String,
      analyze hash (.str v) =
        if jsTrim v.toList = [] then .error .emptyValue
        else .ok (mkProperties hash v)) ∧
    analyzeErrorStatus .invalidType = 422 ∧
    analyzeErrorStatus .emptyValue = 400 ∧
    AnalyzeError.invalidType ≠ AnalyzeError.emptyValue :=
  ⟨rfl, fun _ => rfl, rfl, rfl, by decide⟩

/-- A digest function under which the stored value `zzz` and the new value
`x` collide.  SHA-256 maps infinitely many strings to every digest value, so
a stored row whose id equals the digest of a different incoming value is the
collision situation that a re-check of the raw `value` field would have to
tell apart; the digest is a model parameter, which lets the collision be
exhibited concretely. -/
def collidingHash : String → String := fun _ => "d"

/-- A stored row whose id collides with the digest of the value `x`. -/
def collidingEntry : Entry :=
  { id := "d", value := "zzz", properties := mkProperties collidingHash "zzz" }

/-- Claim C2 counterexample: the write path rejects the value `x` as a
duplicate although no stored row has `x` as its raw value; the stored value
field is never re-checked. -/
theorem duplicate_check_ignores_value_counterexample :
    analyzeAndSave collidingHash [collidingEntry] (.str "x") = .error .duplicate ∧
    ¬ (∃ e, e ∈ [collidingEntry] ∧ e.value = "x") := by
  refine ⟨by decide, ?_⟩
  rintro ⟨e, he, hv⟩
  rw [List.mem_singleton] at he
  subst he
  exact absurd hv (by decide)

/-- Claim C2 as amended: for every digest function, store and non-blank
string value, the write path rejects the write as a duplicate exactly when
some stored row carries the digest of the incoming value as its id; the
stored raw value plays no part in the decision. -/
theorem duplicate_rejects_iff_id_matches (hash : String → String) (store : List Entry)
    (v : String) (hne : jsTrim v.toList ≠ []) :
    analyzeAndSave hash store (.str v) = .error .duplicate ↔
      store.any (fun e => e.id = hash v) = true := by
  simp only [analyzeAndSave]
  rw [if_neg hne]
  by_cases h : store.any (fun e => e.id = hash v) = true
  · simp [h]
  · simp only [Bool.not_eq_true] at h
    simp [h]

/-- Witness for the amended claim C2 theorem at a concrete input. -/
theorem duplicate_rejects_iff_id_matches_witness :
    jsTrim "x".toList ≠ [] ∧
      (analyzeAndSave collidingHash [collidingEntry] (.str "x") = .error .duplicate ↔
        ([collidingEntry].any (fun e => e.id = collidingHash "x")) = true) :=
  ⟨by decide, duplicate_rejects_iff_id_matches collidingHash [collidingEntry] "x" (by decide)⟩

/-- Claim C3: the translator distinguishes the unparseable-query failure
(no extraction rule fired, so the parsed filter object is empty) from the
conflicting-filters failure (rules fired but yielded an impossible
constraint), the two kinds being distinct; the query `asdkjasdj` fails as
unparseable and `strings longer than 10 and shorter than 5` as conflicting. -/
theorem translator_failure_kinds :
    (∀ q : String, jsTrim q.toList ≠ [] →
      extractFilters (jsTrim (q.toList.map jsToLower)) = {} →
      translateNaturalLanguage q = .error .unparseable) ∧
    (∀ q : String, jsTrim q.toList ≠ [] →
      (minMaxConflict (extractFilters (jsTrim (q.toList.map jsToLower))) = true ∨
        negativeWordCount (extractFilters (jsTrim (q.toList.map jsToLower))) = true) →
      translateNaturalLanguage q = .error .conflicting) ∧
    translateNaturalLanguage "asdkjasdj" = .error .unparseable ∧
    translateNaturalLanguage "strings longer than 10 and shorter than 5" =
      .error .conflicting ∧
    NLError.unparseable ≠ NLError.conflicting := by
  refine ⟨?_, ?_, by decide, by decide, by decide⟩
  · intro q hne hempty
    unfold translateNaturalLanguage parseNaturalQuery
    rw [if_neg hne, hempty]
    rfl
  · intro q hne hconf
    unfold translateNaturalLanguage parseNaturalQuery
    rw [if_neg hne]
    rcases hconf with h | h
    · rw [h]
      rfl
    · by_cases hm : minMaxConflict (extractFilters (jsTrim (q.toList.map jsToLower))) = true
      · rw [hm]
        rfl
      · simp only [Bool.not_eq_true] at hm
        rw [hm, h]
        rfl

/-- Witness for the claim C3 theorem at concrete inputs. -/
theorem translator_failure_kinds_witness :
    translateNaturalLanguage "asdkjasdj" = .error .unparseable ∧
    translateNaturalLanguage "strings longer than 10 and shorter than 5" =
      .error .conflicting :=
  ⟨translator_failure_kinds.1 "asdkjasdj" (by decide) (by decide),
   translator_failure_kinds.2.1 "strings longer than 10 and shorter than 5"
     (by decide) (Or.inl (by decide))⟩

/-- Support: no record satisfies both bounds of a filter whose minimum
exceeds its maximum. -/
theorem matchesFilters_of_conflicting_bounds (f : Filters) (p : PropertyRecord)
    (a b : Int) (hmin : f.min_length = some a) (hmax : f.max_length = some b)
    (hlt : b < a) : matchesFilters f p = false := by
  unfold matchesFilters
  rw [hmin, hmax]
  by_cases h1 : a ≤ (p.length : Int)
  · have h2 : ¬ ((p.length : Int) ≤ b) := by omega
    simp [h1, h2]
  · simp [h1]

/-- An identity digest used to build concrete demonstration rows. -/
def idHash : String → String := fun s => s

/-- A demonstration row for a given value. -/
def demoEntry (v : String) : Entry :=
  { id := v, value := v, properties := mkProperties idHash v }

/-- Claim C4 counterexample: a structured request with `min_length = 10` and
`max_length = 5` passes validation and is evaluated, answering success with
an empty row list instead of being rejected as invalid. -/
theorem structured_conflict_accepted_counterexample :
    parseFilterQuery { min_length := some "10", max_length := some "5" } =
      .ok { min_length := some 10, max_length := some 5 } ∧
    getAllAnalyses [demoEntry "abc"] { min_length := some "10", max_length := some "5" } =
      .ok { items := [], count := 0 } := by
  constructor
  · decide
  · decide

/-- Claim C4 as amended: a structured request whose validated filters carry
`min_length > max_length` is not rejected; evaluation proceeds and answers
success with the empty row list over every store. -/
theorem structured_conflict_not_rejected (store : List Entry) (r : RawQuery)
    (f : Filters) (a b : Int) (hok : parseFilterQuery r = .ok f)
    (hmin : f.min_length = some a) (hmax : f.max_length = some b) (hlt : b < a) :
    getAllAnalyses store r = .ok { items := [], count := 0 } := by
  have hnil : getAllWithFilters store f = [] := by
    unfold getAllWithFilters
    apply List.filter_eq_nil_iff.mpr
    intro e _
    rw [matchesFilters_of_conflicting_bounds f e.properties a b hmin hmax hlt]
    decide
  simp only [getAllAnalyses, hok, hnil]
  rfl

/-- Witness for the amended claim C4 theorem at a concrete input. -/
theorem structured_conflict_not_rejected_witness :
    getAllAnalyses [demoEntry "abc"] { min_length := some "10", max_length := some "5" } =
      .ok { items := [], count := 0 } :=
  structured_conflict_not_rejected [demoEntry "abc"]
    { min_length := some "10", max_length := some "5" }
    { min_length := some 10, max_length := some 5 } 10 5
    (by decide) rfl rfl (by decide)

/-- Claim C5: a query phrase `longer than N` (or `more than N`) sets
`min_length = N + 1` and a phrase `shorter than N` (or `less than N`) sets
`max_length = N - 1`; in particular `strings longer than 5` translates to
exactly `min_length = 6`. -/
theorem length_bounds_shifted_by_one :
    (∀ (q : List Char) (n : Nat), scanKwNum longerKws q = some n →
      (extractFilters q).min_length = some ((n : Int) + 1)) ∧
    (∀ (q : List Char) (n : Nat), scanKwNum shorterKws q = some n →
      (extractFilters q).max_length = some ((n : Int) - 1)) ∧
    translateNaturalLanguage "strings longer than 5" = .ok { min_length := some 6 } := by
  refine ⟨?_, ?_, by decide⟩
  · intro q n h
    simp [extractFilters, h]
  · intro q n h
    simp [extractFilters, h]

/-- Witness for the claim C5 theorem at a concrete input. -/
theorem length_bounds_shifted_by_one_witness :
    (extractFilters "strings longer than 5".toList).min_length = some 6 ∧
    (extractFilters "strings shorter than 5".toList).max_length = some 4 :=
  ⟨length_bounds_shifted_by_one.1 "strings longer than 5".toList 5 (by decide),
   length_bounds_shifted_by_one.2.1 "strings shorter than 5".toList 5 (by decide)⟩

/-- Claim C6: a valid filter request, structured or translated, always
answers success with the rows found; zero matches yield a success with an
empty list and are never surfaced as an error of any kind. -/
theorem empty_result_is_success :
    (∀ (store : List Entry) (r : RawQuery) (f : Filters),
      parseFilterQuery r = .ok f →
      getAllAnalyses store r =
        .ok { items := getAllWithFilters store f,
              count := (getAllWithFilters store f).length }) ∧
    (∀ (store : List Entry) (q : String) (f : Filters),
      translateNaturalLanguage q = .ok f →
      filterByNaturalLanguage store q =
        .ok { items := getAllWithFilters store f,
              count := (getAllWithFilters store f).length }) ∧
    (∀ (r : RawQuery) (f : Filters), parseFilterQuery r = .ok f →
      getAllAnalyses [] r = .ok { items := [], count := 0 }) ∧
    (∀ (q : String) (f : Filters), translateNaturalLanguage q = .ok f →
      filterByNaturalLanguage [] q = .ok { items := [], count := 0 }) := by
  have h1 : ∀ (store : List Entry) (r : RawQuery) (f : Filters),
      parseFilterQuery r = .ok f →
      getAllAnalyses store r =
        .ok { items := getAllWithFilters store f,
              count := (getAllWithFilters store f).length } := by
    intro store r f hok
    unfold getAllAnalyses
    rw [hok]
  have h2 : ∀ (store : List Entry) (q : String) (f : Filters),
      translateNaturalLanguage q = .ok f →
      filterByNaturalLanguage store q =
        .ok { items := getAllWithFilters store f,
              count := (getAllWithFilters store f).length } := by
    intro store q f hok
    unfold filterByNaturalLanguage
    rw [hok]
  refine ⟨h1, h2, ?_, ?_⟩
  · intro r f hok
    rw [h1 [] r f hok]
    rfl
  · intro q f hok
    rw [h2 [] q f hok]
    rfl

/-- Witness for the claim C6 theorem at concrete inputs. -/
theorem empty_result_is_success_witness :
    getAllAnalyses [] { } = .ok { items := [], count := 0 } ∧
    filterByNaturalLanguage [] "palindrome" = .ok { items := [], count := 0 } :=
  ⟨empty_result_is_success.2.2.1 { } { } (by decide),
   empty_result_is_success.2.2.2 "palindrome" { is_palindrome := some true } (by decide)⟩

/-- Support: effect of one frequency-map step on a lookup. -/
theorem lookupCount_bump (m : List (Char × Nat)) (c a : Char) :
    lookupCount (bump m c) a =
      if a = c then some ((lookupCount m a).getD 0 + 1) else lookupCount m a := by
  induction m with
  | nil =>
    by_cases h : a = c
    · subst h
      simp [bump, lookupCount]
    · have h2 : ¬ c = a := fun hc => h hc.symm
      simp [bump, lookupCount, h, h2]
  | cons p rest ih =>
    obtain ⟨k, n⟩ := p
    by_cases hk : k = c
    · subst hk
      by_cases hka : k = a
      · subst hka
        simp [bump, lookupCount]
      · have hak : ¬ a = k := fun h => hka h.symm
        simp [bump, lookupCount, hka, hak]
    · by_cases hka : k = a
      · subst hka
        have hkc : ¬ k = c := hk
        simp [bump, lookupCount, hk, hkc, ih]
      · have hak : ¬ a = k := fun h => hka h.symm
        simp [bump, lookupCount, hk, hka, hak, ih]

/-- Support: a lookup after the whole frequency-map fold adds the number of
occurrences in the processed characters to the accumulated count. -/
theorem lookupCount_foldl_bump (s : List Char) (m : List (Char × Nat)) (a : Char) :
    lookupCount (s.foldl bump m) a =
      match lookupCount m a with
      | some n => some (n + s.count a)
      | none => if s.count a = 0 then none else some (s.count a) := by
  induction s generalizing m with
  | nil => cases h : lookupCount m a <;> simp [h]
  | cons c t ih =>
    rw [List.foldl_cons, ih, lookupCount_bump]
    by_cases hac : a = c
    · subst hac
      cases h : lookupCount m a <;> simp [h, List.count_cons] <;> omega
    · have hca : ¬ c = a := fun h => hac h.symm
      cases h : lookupCount m a <;> simp [hac, h, List.count_cons, hca]

/-- Support: the frequency map stores exactly the occurrence counts of the
original-case characters of the value. -/
theorem lookupCount_freqMap (s : List Char) (a : Char) :
    lookupCount (freqMap s) a =
      if s.count a = 0 then none else some (s.count a) := by
  unfold freqMap
  rw [lookupCount_foldl_bump]
  rfl

/-- Claim C9: for an analyzed record, a `contains_character` constraint on
the lower-cased character holds exactly when that character is a key of the
frequency map with a count of at least one; and the map keys are the
original-case characters of the value, mapped to their exact occurrence
counts. -/
theorem contains_character_semantics :
    (∀ (hash : String → String) (v : String) (c : Char),
      (matchesFilters { contains_character := some (jsToLower c) }
          (mkProperties hash v) = true) ↔
        ∃ n, lookupCount (freqMap v.toList) (jsToLower c) = some n ∧ 1 ≤ n) ∧
    (∀ (s : List Char) (a : Char) (n : Nat),
      lookupCount (freqMap s) a = some n ↔ (s.count a = n ∧ 1 ≤ n)) := by
  have hmain : ∀ (s : List Char) (a : Char) (n : Nat),
      lookupCount (freqMap s) a = some n ↔ (s.count a = n ∧ 1 ≤ n) := by
    intro s a n
    rw [lookupCount_freqMap]
    by_cases h : s.count a = 0
    · simp [h]
      omega
    · simp [h]
      intro he
      omega
  refine ⟨?_, hmain⟩
  intro hash v c
  simp only [matchesFilters, mkProperties]
  rw [lookupCount_freqMap]
  by_cases h : List.count (jsToLower c) v.toList = 0
  · rw [if_pos h]
    simp
  · rw [if_neg h]
    constructor
    · intro _
      exact ⟨List.count (jsToLower c) v.toList, rfl, Nat.one_le_iff_ne_zero.mpr h⟩
    · intro _
      rfl

/-- Witness for the claim C9 theorem at a concrete input. -/
theorem contains_character_semantics_witness :
    ((matchesFilters { contains_character := some (jsToLower 'M') }
        (mkProperties idHash "Madam") = true) ↔
      ∃ n, lookupCount (freqMap "Madam".toList) (jsToLower 'M') = some n ∧ 1 ≤ n) ∧
    (lookupCount (freqMap "Madam".toList) 'M' = some 1 ↔
      ("Madam".toList.count 'M' = 1 ∧ 1 ≤ 1)) :=
  ⟨contains_character_semantics.1 idHash "Madam" 'M',
   contains_character_semantics.2 "Madam".toList 'M' 1⟩

/-- The consistency checking of `parseNaturalQuery` with the negative
word-count branch removed (service lines 81-85 deleted). -/
def parseNaturalQueryNoWcCheck (q : List Char) : Except Unit Filters :=
  if minMaxConflict (extractFilters q) then .error ()
  else .ok (extractFilters q)

/-- Claim C10: rule extraction never produces a negative word count (the
value is one or a parsed digit run), so the negative-word-count conflict
branch of `parseNaturalQuery` is unreachable: deleting it changes nothing. -/
theorem negative_word_count_unreachable :
    (∀ (q : List Char) (w : Int), (extractFilters q).word_count = some w → 0 ≤ w) ∧
    (∀ q : List Char, negativeWordCount (extractFilters q) = false) ∧
    (∀ q : List Char, parseNaturalQuery q = parseNaturalQueryNoWcCheck q) := by
  have hwc : ∀ (q : List Char) (w : Int), (extractFilters q).word_count = some w → 0 ≤ w := by
    intro q w h
    simp only [extractFilters] at h
    split at h
    · cases h
      decide
    · cases hs : scanNumWord q with
      | none => rw [hs] at h; simp at h
      | some n =>
        rw [hs] at h
        simp at h
        omega
  have hneg : ∀ q : List Char, negativeWordCount (extractFilters q) = false := by
    intro q
    unfold negativeWordCount
    cases hw : (extractFilters q).word_count with
    | none => rfl
    | some w =>
      have := hwc q w hw
      simp
      omega
  refine ⟨hwc, hneg, ?_⟩
  intro q
  unfold parseNaturalQuery parseNaturalQueryNoWcCheck
  rw [hneg q]
  by_cases hm : minMaxConflict (extractFilters q) = true
  · rw [hm]
    rfl
  · simp only [Bool.not_eq_true] at hm
    rw [hm]
    rfl

/-- Witness for the claim C10 theorem at a concrete input. -/
theorem negative_word_count_unreachable_witness :
    0 ≤ (3 : Int) ∧ parseNaturalQuery "3 words".toList = parseNaturalQueryNoWcCheck "3 words".toList :=
  ⟨negative_word_count_unreachable.1 "3 words".toList 3 (by decide),
   negative_word_count_unreachable.2.2 "3 words".toList⟩

/-- Claim C8 counterexample: the numeric filter parameter `2.5` is not an
integer, yet the structured validation accepts it and stores its floor, 2,
instead of rejecting the field. -/
theorem numeric_filter_accepts_non_integer_counterexample :
    parseFilterQuery { min_length := some "2.5" } = .ok { min_length := some 2 } ∧
    jsStringToNumber "2.5" = .num { mantissa := 25, exp10 := -1 } ∧
    ¬ ∃ n : Int, dToRat { mantissa := 25, exp10 := -1 } = (n : ℚ) := by
  refine ⟨by decide, by decide, ?_⟩
  rintro ⟨n, hn⟩
  unfold dToRat at hn
  rw [zpow_neg, zpow_one] at hn
  have h10 : (10 : ℚ) ≠ 0 := by norm_num
  have h2 : (25 : ℚ) = (n : ℚ) * 10 := by
    field_simp at hn
    linarith
  have h3 : (25 : Int) = n * 10 := by exact_mod_cast h2
  omega

/-- Claim C8 as amended: each structured filter field is validated on its
own and a failing field is rejected with the 400 validation error, with
`is_palindrome` accepting exactly `true` and `false` and
`contains_character` accepting exactly one character; a numeric field,
however, is accepted exactly when `Number` yields a finite non-negative
value, integer or not, and the accepted value is its floor. -/
theorem structured_field_validation :
    (∀ s : String, (∃ v, parsePalParam (some s) = .ok v) ↔ (s = "true" ∨ s = "false")) ∧
    (∀ s : String, (∃ v, parseNumParam (some s) = .ok v) ↔
      (∃ d, jsStringToNumber s = .num d ∧ 0 ≤ d.mantissa)) ∧
    (∀ (s : String) (d : DecNum), jsStringToNumber s = .num d → 0 ≤ d.mantissa →
      parseNumParam (some s) = .ok (some (dFloor d))) ∧
    (∀ s : String, (∃ v, parseCharParam (some s) = .ok v) ↔ s.toList.length = 1) ∧
    (∀ (store : List Entry) (r : RawQuery), parseFilterQuery r = .error () →
      getAllAnalyses store r = .error .badRequest) := by
  refine ⟨?_, ?_, ?_, ?_, ?_⟩
  · intro s
    unfold parsePalParam
    by_cases ht : s = "true"
    · simp [ht]
    · by_cases hf : s = "false"
      · simp [ht, hf]
      · simp [ht, hf]
  · intro s
    cases hj : jsStringToNumber s with
    | nan => simp [parseNumParam, hj]
    | inf b => simp [parseNumParam, hj]
    | num d =>
      by_cases hm : d.mantissa < 0
      · have hneg : dNeg d = true := by
          unfold dNeg
          simp [hm]
        simp [parseNumParam, hj, hneg]
        omega
      · have hneg : dNeg d = false := by
          unfold dNeg
          simp [hm]
        simp [parseNumParam, hj, hneg]
        omega
  · intro s d hj hm
    have hneg : dNeg d = false := by
      unfold dNeg
      simp
      omega
    simp [parseNumParam, hj, hneg]
  · intro s
    simp only [parseCharParam]
    match hl : s.toList with
    | [] => simp
    | [c] => simp
    | c :: d :: rest => simp
  · intro store r h
    simp [getAllAnalyses, h]

/-- Witness for the amended claim C8 theorem at concrete inputs. -/
theorem structured_field_validation_witness :
    parseNumParam (some "2.5") = .ok (some (dFloor { mantissa := 25, exp10 := -1 })) ∧
    getAllAnalyses [] { contains_character := some "ab" } = .error .badRequest :=
  ⟨structured_field_validation.2.2.1 "2.5" { mantissa := 25, exp10 := -1 }
      (by decide) (by decide),
   structured_field_validation.2.2.2.2 [] { contains_character := some "ab" } (by decide)⟩

end StringAnalyzer
